import Mathlib

/-!
Verification of the ExamMaker randomized constrained-selection engine.

The definitions below are a shallow embedding of the selection engine in
`main.py`: the catalog (`question_data`, a dict from topic to question
records) becomes an association list, the Python `random` generator
becomes an explicit stream of natural-number draws (`random.choice`
consumes one draw and indexes the list by the draw modulo its length),
and each of the three selection routines (`random_select_9231_p4`,
`random_select_9231_p3`, `random_select_9709_p3`) is translated
statement by statement, including the `break`/`continue` control flow of
the bounded retry loops.  The CSV loader `load_question_data` is
embedded as a state-passing function whose Bool result records whether
the Python code would have raised, with the in-place dict mutation made
explicit.
-/

/-- A question record, `{index, marks}` in the source. -/
structure Item where
  index : String
  marks : Int
deriving DecidableEq, Repr

/-- `self.question_data`: a dict from topic to its list of question
records, embedded as an association list in insertion order. -/
abbrev Catalog := List (String × List Item)

/-- `self.question_data.get(topic, [])`. -/
def lookupD (cat : Catalog) (t : String) : List Item :=
  match cat with
  | [] => []
  | (k, qs) :: rest => if k = t then qs else lookupD rest t

/-- A seeded random generator: a stream of draws and a position.
`random.choice` consumes one draw. -/
structure Rng where
  stream : Nat → Nat
  pos : Nat

/-- The current draw. -/
def Rng.draw (r : Rng) : Nat := r.stream r.pos

/-- Advance past one consumed draw. -/
def Rng.next (r : Rng) : Rng := ⟨r.stream, r.pos + 1⟩

/-- A generator whose every draw is `d`. -/
def mkRng (d : Nat) : Rng := ⟨fun _ => d, 0⟩

/-- A generator that plays back the given draws, then zeros. -/
def rngOf (l : List Nat) : Rng := ⟨fun n => l.getD n 0, 0⟩

/-- The all-zero generator used for concrete runs. -/
def rng0 : Rng := mkRng 0

/-- The source idiom `random.choice(pool) if pool else None`: no draw is
consumed when the pool is empty, otherwise one draw selects an index. -/
def randChoice {α : Type} (l : List α) (r : Rng) : Option α × Rng :=
  match l with
  | [] => (none, r)
  | x :: xs => ((x :: xs)[r.draw % (xs.length + 1)]?, r.next)

/-- `random.choice` on a list already known nonempty (head `x`). -/
def randPick {α : Type} (x : α) (xs : List α) (r : Rng) : α × Rng :=
  ((x :: xs).getD (r.draw % (xs.length + 1)) x, r.next)

/-- The flat pool `[(t, q) for t in topics for q in data.get(t, [])]`. -/
def pairsOf (cat : Catalog) (topics : List String) : List (String × Item) :=
  match topics with
  | [] => []
  | t :: ts => ((lookupD cat t).map (fun q => (t, q))) ++ pairsOf cat ts

/-- `sum(q[\x22marks\x22] for _, q in selected)`. -/
def sumMarks (sel : List (String × Item)) : Int :=
  (sel.map (fun p => p.2.marks)).sum

/-- Contribution of one pick to the `below_6` counter. -/
def b6inc (q : Item) : Nat := if q.marks < 6 then 1 else 0

/-- Number of selected items with marks below 6. -/
def countB6 (sel : List (String × Item)) : Nat :=
  sel.countP (fun p => decide (p.2.marks < 6))

/-! ## random_select_9231_p4 -/

/-- The `chi` group of topics in `random_select_9231_p4`. -/
def chiTopics : List String :=
  ["Chi-square Test (contingency table)", "Chi-square Test (goodness of fit)"]

/-- The `crv` group. -/
def crvTopics : List String := ["Continuous Random Variable"]

/-- The `pgf` group. -/
def pgfTopics : List String := ["Probability Generating Function"]

/-- The `twci` group. -/
def twciTopics : List String :=
  ["t-Test (single sample)", "t-Test (pooled sample)", "t-Test (paired sample)",
   "Confidence Interval", "Wilcoxon Test (signed-rank)", "Wilcoxon Test (rank-sum)"]

/-- The inner `choose` of `random_select_9231_p4`: one uniform draw from
the flat pool of `(topic, question)` pairs, `None` on an empty pool. -/
def choose (topics : List String) (cat : Catalog) (r : Rng) :
    Option (String × Item) × Rng :=
  randChoice (pairsOf cat topics) r

/-- Working state of one 9231 P4 attempt before the total is computed. -/
structure St4 where
  sel : List (String × Item)
  used : List String
  b6 : Nat

/-- The `for key in [chi, crv, pgf]` loop of `random_select_9231_p4`;
a `None` pick breaks out of the loop keeping the state built so far. -/
def stage1_p4 (cat : Catalog) (groups : List (List String)) (st : St4) (r : Rng) :
    St4 × Rng :=
  match groups with
  | [] => (st, r)
  | g :: gs =>
    match choose g cat r with
    | (none, r1) => (st, r1)
    | (some (t, q), r1) =>
        stage1_p4 cat gs ⟨st.sel ++ [(t, q)], t :: st.used, st.b6 + b6inc q⟩ r1

/-- `final_candidates`: all `(topic, question)` pairs over unused topics
of the whole catalog whose marks land the total exactly on 50. -/
def finalCandidates (cat : Catalog) (used : List String) (total : Int) :
    List (String × Item) :=
  match cat with
  | [] => []
  | (k, qs) :: rest =>
    (if k ∈ used then []
     else (qs.filter (fun q => decide (total + q.marks = 50))).map (fun q => (k, q)))
      ++ finalCandidates rest used total

/-- One attempt of `random_select_9231_p4` (one iteration of its
`for _ in range(1000)` loop body). -/
def attempt_9231_p4 (cat : Catalog) (r0 : Rng) :
    Option (List (String × Item)) × Rng :=
  let target : Int := 50
  match stage1_p4 cat [chiTopics, crvTopics, pgfTopics] ⟨[], [], 0⟩ r0 with
  | (st, r1) =>
    match choose twciTopics cat r1 with
    | (none, r2) => (none, r2)
    | (some (t4, q4), r2) =>
      let sel4 := st.sel ++ [(t4, q4)]
      let used4 := t4 :: st.used
      let b64 := st.b6 + b6inc q4
      let total4 := sumMarks sel4
      if total4 > target - 10 ∨ b64 > 1 then (none, r2)
      else
        let remaining := twciTopics.filter (fun t => decide (t ∉ used4))
        let cands5 := (pairsOf cat remaining).filter
            (fun p => decide (total4 + p.2.marks < target))
        match randChoice cands5 r2 with
        | (none, r3) => (none, r3)
        | (some (t5, q5), r3) =>
          let sel5 := sel4 ++ [(t5, q5)]
          let used5 := t5 :: used4
          let total5 := total4 + q5.marks
          let b65 := b64 + b6inc q5
          if b65 > 1 then (none, r3)
          else
            match randChoice (finalCandidates cat used5 total5) r3 with
            | (none, r4) => (none, r4)
            | (some (t6, q6), r4) =>
              let sel6 := sel5 ++ [(t6, q6)]
              if sel6.length = 6 ∧ sumMarks sel6 = target then (some sel6, r4)
              else (none, r4)

/-! ## random_select_9231_p3 -/

/-- `core_topics` of `random_select_9231_p3`. -/
def coreTopics_p3 : List String :=
  ["Projectile Motion", "Center of Mass", "Circular Motion",
   "Hooke\x27s Law", "General Straight Motion", "Momentum"]

/-- `extra_pool` of `random_select_9231_p3`.  Note that it shares
"Circular Motion" with `core_topics`. -/
def extraPool_p3 : List String := ["Equilibrium of Rigid Body", "Circular Motion"]

/-- Working state of one 9231 P3 attempt. -/
structure St3 where
  sel : List (String × Item)
  used : List String
  total : Int
  b6 : Nat

/-- The `for topic in core_topics` loop; an empty topic breaks out of
the loop keeping the state built so far. -/
def coreLoop_p3 (cat : Catalog) (topics : List String) (st : St3) (r : Rng) :
    St3 × Rng :=
  match topics with
  | [] => (st, r)
  | t :: ts =>
    match lookupD cat t with
    | [] => (st, r)
    | q0 :: qs =>
      let p := randPick q0 qs r
      coreLoop_p3 cat ts
        ⟨st.sel ++ [(t, p.1)], t :: st.used, st.total + p.1.marks, st.b6 + b6inc p.1⟩
        p.2

/-- One attempt of `random_select_9231_p3`. -/
def attempt_9231_p3 (cat : Catalog) (r0 : Rng) :
    Option (List (String × Item)) × Rng :=
  let target : Int := 50
  match coreLoop_p3 cat coreTopics_p3 ⟨[], [], 0, 0⟩ r0 with
  | (st, r1) =>
    if st.sel.length < 6 ∨ st.total > 44 then (none, r1)
    else
      let candidates := (pairsOf cat extraPool_p3).filter
          (fun p => decide (st.total + p.2.marks = target ∧ st.b6 + b6inc p.2 ≤ 1))
      match randChoice candidates r1 with
      | (none, r2) => (none, r2)
      | (some p, r2) => (some (st.sel ++ [p]), r2)

/-! ## random_select_9709_p3 -/

/-- `must_have_once` of `random_select_9709_p3`. -/
def mustTopics_9709 : List String :=
  ["Modulus Inequality", "Binomial Expansion", "Numerical Method of Solving Equation",
   "Trigonometric Identities", "Vectors", "Differential Equations",
   "Integration by Parts"]

/-- `one_of_sets` of `random_select_9709_p3`. -/
def oneOfSets_9709 : List (List String) :=
  [["Factor and Remainder Theorems", "Integration by Substitution",
    "Integration by Partial Fraction"],
   ["Exponential Equation and Inequality", "Linearization Using Logarithm",
    "Logarithmic Equation"],
   ["Parametric Differentiation", "Implicit Differentiation"]]

/-- `filler_pool` of `random_select_9709_p3`. -/
def fillerPool_9709 : List String :=
  ["Auxiliary Angle Method", "Complex Numbers", "Product Rule and Quotient Rule"]

/-- Working state of one 9709 P3 attempt. -/
structure St97 where
  sel : List (String × Item)
  used : List String
  total : Int

/-- The inner `pick_unique` of `random_select_9709_p3`: a topic is drawn
uniformly from the whole `topic_list` first, then a question uniformly
from that topic; the question list is filtered by the (per-question
constant) condition `topic not in used_topics`. -/
def pick_unique (cat : Catalog) (used : List String) (group : List String) (r : Rng) :
    Option (String × Item) × Rng :=
  match randChoice group r with
  | (none, r1) => (none, r1)
  | (some t, r1) =>
    let questions := (lookupD cat t).filter (fun _ => decide (t ∉ used))
    match randChoice questions r1 with
    | (none, r2) => (none, r2)
    | (some q, r2) => (some (t, q), r2)

/-- The `for topic in must_have_once` loop; an empty topic breaks out of
the loop (the attempt continues with the state built so far). -/
def mustLoop_9709 (cat : Catalog) (topics : List String) (st : St97) (r : Rng) :
    St97 × Rng :=
  match topics with
  | [] => (st, r)
  | t :: ts =>
    match lookupD cat t with
    | [] => (st, r)
    | q0 :: qs =>
      let p := randPick q0 qs r
      mustLoop_9709 cat ts
        ⟨st.sel ++ [(t, p.1)], t :: st.used, st.total + p.1.marks⟩ p.2

/-- The Complex Numbers ("at least once") step. -/
def cnStep_9709 (cat : Catalog) (st : St97) (r : Rng) : St97 × Rng :=
  match lookupD cat "Complex Numbers" with
  | [] => (st, r)
  | q0 :: qs =>
    if "Complex Numbers" ∈ st.used then (st, r)
    else
      let p := randPick q0 qs r
      (⟨st.sel ++ [("Complex Numbers", p.1)], "Complex Numbers" :: st.used,
        st.total + p.1.marks⟩, p.2)

/-- The `for group in one_of_sets` loop; a `None` pick is skipped. -/
def groupsLoop_9709 (cat : Catalog) (groups : List (List String)) (st : St97) (r : Rng) :
    St97 × Rng :=
  match groups with
  | [] => (st, r)
  | g :: gs =>
    match pick_unique cat st.used g r with
    | (none, r1) => groupsLoop_9709 cat gs st r1
    | (some (t, q), r1) =>
        groupsLoop_9709 cat gs ⟨st.sel ++ [(t, q)], t :: st.used, st.total + q.marks⟩ r1

/-- The inner filler loop over one topic's questions, with its
`continue` (topic already used), `break` (11 items reached), in-place
add, and mid-loop `return`. -/
def fillerInner_9709 (t : String) (qs : List Item) (st : St97) :
    (List (String × Item)) ⊕ St97 :=
  match qs with
  | [] => .inr st
  | q :: rest =>
    if t ∈ st.used then fillerInner_9709 t rest st
    else if st.sel.length ≥ 11 then .inr st
    else
      let st1 : St97 :=
        if st.total + q.marks ≤ 75 then
          ⟨st.sel ++ [(t, q)], t :: st.used, st.total + q.marks⟩
        else st
      if st1.total = 75 ∧ 10 ≤ st1.sel.length ∧ st1.sel.length ≤ 11 then .inl st1.sel
      else fillerInner_9709 t rest st1

/-- The outer filler loop over the precomputed filler topic list. -/
def fillerOuter_9709 (cat : Catalog) (topics : List String) (st : St97) :
    (List (String × Item)) ⊕ St97 :=
  match topics with
  | [] => .inr st
  | t :: ts =>
    match fillerInner_9709 t (lookupD cat t) st with
    | .inl sel => .inl sel
    | .inr st1 => fillerOuter_9709 cat ts st1

/-- One attempt of `random_select_9709_p3`. -/
def attempt_9709_p3 (cat : Catalog) (r0 : Rng) :
    Option (List (String × Item)) × Rng :=
  let target : Int := 75
  match mustLoop_9709 cat mustTopics_9709 ⟨[], [], 0⟩ r0 with
  | (st1, r1) =>
    match cnStep_9709 cat st1 r1 with
    | (st2, r2) =>
      match groupsLoop_9709 cat oneOfSets_9709 st2 r2 with
      | (st3, r3) =>
        let fillers := fillerPool_9709.filter (fun t => decide (t ∉ st3.used))
        match fillerOuter_9709 cat fillers st3 with
        | .inl sel => (some sel, r3)
        | .inr st4 =>
          if st4.total = target ∧ 10 ≤ st4.sel.length ∧ st4.sel.length ≤ 11 then
            (some st4.sel, r3)
          else (none, r3)

/-! ## The retry loops -/

/-- The `for _ in range(n)` retry loop: runs attempts until one
succeeds, recording the 1-based index of the succeeding attempt. -/
def runT {σ : Type} (attempt : Rng → Option σ × Rng) :
    Nat → Rng → Nat → Option (Nat × σ)
  | 0, _, _ => none
  | n + 1, r, k =>
    match attempt r with
    | (some s, _) => some (k, s)
    | (none, r1) => runT attempt n r1 (k + 1)

/-- Number of attempts actually performed by the retry loop. -/
def countRun {σ : Type} (attempt : Rng → Option σ × Rng) : Nat → Rng → Nat
  | 0, _ => 0
  | n + 1, r =>
    match attempt r with
    | (some _, _) => 1
    | (none, r1) => 1 + countRun attempt n r1

/-- `random_select_9231_p4`, with the succeeding attempt number. -/
def random_select_9231_p4_traced (cat : Catalog) (r : Rng) :
    Option (Nat × List (String × Item)) :=
  runT (attempt_9231_p4 cat) 1000 r 1

/-- `random_select_9231_p4`. -/
def random_select_9231_p4 (cat : Catalog) (r : Rng) :
    Option (List (String × Item)) :=
  (random_select_9231_p4_traced cat r).map Prod.snd

/-- `random_select_9231_p3`, with the succeeding attempt number. -/
def random_select_9231_p3_traced (cat : Catalog) (r : Rng) :
    Option (Nat × List (String × Item)) :=
  runT (attempt_9231_p3 cat) 1000 r 1

/-- `random_select_9231_p3`. -/
def random_select_9231_p3 (cat : Catalog) (r : Rng) :
    Option (List (String × Item)) :=
  (random_select_9231_p3_traced cat r).map Prod.snd

/-- `random_select_9709_p3`, with the succeeding attempt number. -/
def random_select_9709_p3_traced (cat : Catalog) (r : Rng) :
    Option (Nat × List (String × Item)) :=
  runT (attempt_9709_p3 cat) 1000 r 1

/-- `random_select_9709_p3`. -/
def random_select_9709_p3 (cat : Catalog) (r : Rng) :
    Option (List (String × Item)) :=
  (random_select_9709_p3_traced cat r).map Prod.snd

/-! ## load_question_data -/

/-- One CSV row.  The Marks cell is represented by the outcome of
`int(row[\x22Marks\x22])`: `some m` when the cell parses as the integer
`m`, `none` when `int()` would raise on it. -/
structure CsvRow where
  topic : String
  qindex : String
  marks : Option Int
deriving DecidableEq

/-- `self.question_data.setdefault(topic, []).append(...)` on an
association list in insertion order. -/
def catalogInsert (cat : Catalog) (t : String) (it : Item) : Catalog :=
  match cat with
  | [] => [(t, [it])]
  | (k, qs) :: rest =>
    if k = t then (k, qs ++ [it]) :: rest
    else (k, qs) :: catalogInsert rest t it

/-- The row-reading loop of `load_question_data`.  A row whose Marks
cell does not parse raises, leaving the dict with exactly the rows read
so far (the Bool records that an exception propagated). -/
def loadLoop (cat : Catalog) (rows : List CsvRow) : Catalog × Bool :=
  match rows with
  | [] => (cat, false)
  | row :: rest =>
    match row.marks with
    | none => (cat, true)
    | some m => loadLoop (catalogInsert cat row.topic ⟨row.qindex, m⟩) rest

/-- The recognized paper names. -/
def validPapers : List String := ["9709 Paper 3", "9231 Paper 3", "9231 Paper 4"]

/-- `load_question_data`: an unrecognized paper or a missing CSV clears
the dict and returns; otherwise the dict is cleared and repopulated row
by row.  The result pairs the caller-visible catalog with whether an
exception was raised. -/
def load_question_data (prior : Catalog) (paper : String) (csvExists : Bool)
    (rows : List CsvRow) : Catalog × Bool :=
  if paper ∉ validPapers then ([], false)
  else if csvExists = false then ([], false)
  else loadLoop [] rows

/-- Whether an optional pick lies in the given category. -/
def catIs (t : String) (o : Option (String × Item)) : Bool :=
  match o with
  | some p => decide (p.1 = t)
  | none => false


/-- Invariant tying a 9709 working state to its selection list. -/
def Inv97 (st : St97) : Prop :=
  st.used = (st.sel.map Prod.fst).reverse ∧ st.total = sumMarks st.sel ∧
    (st.sel.map Prod.fst).Nodup

/-! ## Concrete catalogs and runs -/

/-- A catalog on which `random_select_9231_p4` succeeds at once. -/
def catW4 : Catalog :=
  [("Chi-square Test (contingency table)", [⟨"c1", 10⟩]),
   ("Continuous Random Variable", [⟨"v1", 10⟩]),
   ("Probability Generating Function", [⟨"g1", 10⟩]),
   ("t-Test (single sample)", [⟨"s1", 10⟩]),
   ("Confidence Interval", [⟨"i1", 4⟩]),
   ("Extra Topic", [⟨"e1", 6⟩])]

/-- The selection `random_select_9231_p4` returns on `catW4` from `rng0`. -/
def selW4 : List (String × Item) :=
  [("Chi-square Test (contingency table)", ⟨"c1", 10⟩),
   ("Continuous Random Variable", ⟨"v1", 10⟩),
   ("Probability Generating Function", ⟨"g1", 10⟩),
   ("t-Test (single sample)", ⟨"s1", 10⟩),
   ("Confidence Interval", ⟨"i1", 4⟩),
   ("Extra Topic", ⟨"e1", 6⟩)]

/-- Like `catW4` but with fifth and sixth picks of marks 5: the final
exact-completion pick is not counted against the `below_6` budget. -/
def catC3 : Catalog :=
  [("Chi-square Test (contingency table)", [⟨"c1", 10⟩]),
   ("Continuous Random Variable", [⟨"v1", 10⟩]),
   ("Probability Generating Function", [⟨"g1", 10⟩]),
   ("t-Test (single sample)", [⟨"s1", 10⟩]),
   ("Confidence Interval", [⟨"i1", 5⟩]),
   ("Extra Topic", [⟨"e1", 5⟩])]

/-- The selection `random_select_9231_p4` returns on `catC3` from `rng0`. -/
def selC3 : List (String × Item) :=
  [("Chi-square Test (contingency table)", ⟨"c1", 10⟩),
   ("Continuous Random Variable", ⟨"v1", 10⟩),
   ("Probability Generating Function", ⟨"g1", 10⟩),
   ("t-Test (single sample)", ⟨"s1", 10⟩),
   ("Confidence Interval", ⟨"i1", 5⟩),
   ("Extra Topic", ⟨"e1", 5⟩)]

/-- A catalog on which `random_select_9231_p3` succeeds at once. -/
def catW3 : Catalog :=
  [("Projectile Motion", [⟨"p1", 7⟩]),
   ("Center of Mass", [⟨"m1", 7⟩]),
   ("Circular Motion", [⟨"cm1", 7⟩]),
   ("Hooke\x27s Law", [⟨"h1", 7⟩]),
   ("General Straight Motion", [⟨"g1", 7⟩]),
   ("Momentum", [⟨"mo1", 7⟩]),
   ("Equilibrium of Rigid Body", [⟨"eq1", 8⟩])]

/-- The selection `random_select_9231_p3` returns on `catW3` from `rng0`. -/
def selW3 : List (String × Item) :=
  [("Projectile Motion", ⟨"p1", 7⟩),
   ("Center of Mass", ⟨"m1", 7⟩),
   ("Circular Motion", ⟨"cm1", 7⟩),
   ("Hooke\x27s Law", ⟨"h1", 7⟩),
   ("General Straight Motion", ⟨"g1", 7⟩),
   ("Momentum", ⟨"mo1", 7⟩),
   ("Equilibrium of Rigid Body", ⟨"eq1", 8⟩)]

/-- A catalog on which the 9231 P3 extra pick repeats the core topic
"Circular Motion": no Equilibrium items, and a second Circular Motion
item completing the sum to exactly 50. -/
def catC2 : Catalog :=
  [("Projectile Motion", [⟨"p1", 7⟩]),
   ("Center of Mass", [⟨"m1", 7⟩]),
   ("Circular Motion", [⟨"cm1", 7⟩, ⟨"cm2", 8⟩]),
   ("Hooke\x27s Law", [⟨"h1", 7⟩]),
   ("General Straight Motion", [⟨"g1", 7⟩]),
   ("Momentum", [⟨"mo1", 7⟩])]

/-- The selection `random_select_9231_p3` returns on `catC2` from `rng0`. -/
def selC2 : List (String × Item) :=
  [("Projectile Motion", ⟨"p1", 7⟩),
   ("Center of Mass", ⟨"m1", 7⟩),
   ("Circular Motion", ⟨"cm1", 7⟩),
   ("Hooke\x27s Law", ⟨"h1", 7⟩),
   ("General Straight Motion", ⟨"g1", 7⟩),
   ("Momentum", ⟨"mo1", 7⟩),
   ("Circular Motion", ⟨"cm2", 8⟩)]

/-- The spec scenario for 9231 P3: each of the six core topics has one
item of weight 8, and the extra pool offers a pick of weight 2. -/
def catC4 : Catalog :=
  [("Projectile Motion", [⟨"p1", 8⟩]),
   ("Center of Mass", [⟨"m1", 8⟩]),
   ("Circular Motion", [⟨"cm1", 8⟩]),
   ("Hooke\x27s Law", [⟨"h1", 8⟩]),
   ("General Straight Motion", [⟨"g1", 8⟩]),
   ("Momentum", [⟨"mo1", 8⟩]),
   ("Equilibrium of Rigid Body", [⟨"eq1", 2⟩])]

/-- The analogous scenario with core weights 7 and extra weight 8, which
keeps the core total within the 44 budget. -/
def catA4 : Catalog :=
  [("Projectile Motion", [⟨"p1", 7⟩]),
   ("Center of Mass", [⟨"m1", 7⟩]),
   ("Circular Motion", [⟨"cm1", 7⟩]),
   ("Hooke\x27s Law", [⟨"h1", 7⟩]),
   ("General Straight Motion", [⟨"g1", 7⟩]),
   ("Momentum", [⟨"mo1", 7⟩]),
   ("Equilibrium of Rigid Body", [⟨"eq1", 8⟩])]

/-- The selection `random_select_9231_p3` returns on `catA4` (for every
generator: all pools are singletons). -/
def selA4 : List (String × Item) :=
  [("Projectile Motion", ⟨"p1", 7⟩),
   ("Center of Mass", ⟨"m1", 7⟩),
   ("Circular Motion", ⟨"cm1", 7⟩),
   ("Hooke\x27s Law", ⟨"h1", 7⟩),
   ("General Straight Motion", ⟨"g1", 7⟩),
   ("Momentum", ⟨"mo1", 7⟩),
   ("Equilibrium of Rigid Body", ⟨"eq1", 8⟩)]

/-- A catalog on which `random_select_9709_p3` succeeds at once. -/
def catW9 : Catalog :=
  [("Modulus Inequality", [⟨"a1", 7⟩]),
   ("Binomial Expansion", [⟨"a2", 7⟩]),
   ("Numerical Method of Solving Equation", [⟨"a3", 7⟩]),
   ("Trigonometric Identities", [⟨"a4", 7⟩]),
   ("Vectors", [⟨"a5", 7⟩]),
   ("Differential Equations", [⟨"a6", 7⟩]),
   ("Integration by Parts", [⟨"a7", 7⟩]),
   ("Complex Numbers", [⟨"cn", 7⟩]),
   ("Factor and Remainder Theorems", [⟨"f1", 7⟩]),
   ("Exponential Equation and Inequality", [⟨"x1", 6⟩]),
   ("Parametric Differentiation", [⟨"d1", 6⟩])]

/-- The selection `random_select_9709_p3` returns on `catW9` from `rng0`. -/
def selW9 : List (String × Item) :=
  [("Modulus Inequality", ⟨"a1", 7⟩),
   ("Binomial Expansion", ⟨"a2", 7⟩),
   ("Numerical Method of Solving Equation", ⟨"a3", 7⟩),
   ("Trigonometric Identities", ⟨"a4", 7⟩),
   ("Vectors", ⟨"a5", 7⟩),
   ("Differential Equations", ⟨"a6", 7⟩),
   ("Integration by Parts", ⟨"a7", 7⟩),
   ("Complex Numbers", ⟨"cn", 7⟩),
   ("Factor and Remainder Theorems", ⟨"f1", 7⟩),
   ("Exponential Equation and Inequality", ⟨"x1", 6⟩),
   ("Parametric Differentiation", ⟨"d1", 6⟩)]

/-- A catalog with NO items in the required-once topic "Integration by
Parts" on which `random_select_9709_p3` nevertheless succeeds: the
`break` skips the missing topic but the attempt continues. -/
def catC5 : Catalog :=
  [("Modulus Inequality", [⟨"a1", 7⟩]),
   ("Binomial Expansion", [⟨"a2", 7⟩]),
   ("Numerical Method of Solving Equation", [⟨"a3", 7⟩]),
   ("Trigonometric Identities", [⟨"a4", 7⟩]),
   ("Vectors", [⟨"a5", 7⟩]),
   ("Differential Equations", [⟨"a6", 7⟩]),
   ("Complex Numbers", [⟨"cn", 7⟩]),
   ("Factor and Remainder Theorems", [⟨"f1", 9⟩]),
   ("Exponential Equation and Inequality", [⟨"x1", 9⟩]),
   ("Parametric Differentiation", [⟨"d1", 8⟩])]

/-- The selection `random_select_9709_p3` returns on `catC5` from `rng0`. -/
def selC5 : List (String × Item) :=
  [("Modulus Inequality", ⟨"a1", 7⟩),
   ("Binomial Expansion", ⟨"a2", 7⟩),
   ("Numerical Method of Solving Equation", ⟨"a3", 7⟩),
   ("Trigonometric Identities", ⟨"a4", 7⟩),
   ("Vectors", ⟨"a5", 7⟩),
   ("Differential Equations", ⟨"a6", 7⟩),
   ("Complex Numbers", ⟨"cn", 7⟩),
   ("Factor and Remainder Theorems", ⟨"f1", 9⟩),
   ("Exponential Equation and Inequality", ⟨"x1", 9⟩),
   ("Parametric Differentiation", ⟨"d1", 8⟩)]

/-- A two-topic exclusive group for comparing the two samplers. -/
def c6grp : List String := ["TopicA", "TopicB"]

/-- Catalog where TopicA has two items and TopicB one. -/
def c6cat : Catalog :=
  [("TopicA", [⟨"a1", 5⟩, ⟨"a2", 5⟩]), ("TopicB", [⟨"b1", 5⟩])]

/-- Catalog where TopicA is absent and TopicB has one item. -/
def c6cat2 : Catalog := [("TopicB", [⟨"b1", 5⟩])]

/-- Outcomes of `pick_unique` on `c6cat` over the four equally likely
draw profiles (first draw selects the topic mod 2, second the item). -/
def c6twoStage : List (Option (String × Item)) :=
  [(pick_unique c6cat [] c6grp (rngOf [0, 0])).1,
   (pick_unique c6cat [] c6grp (rngOf [0, 1])).1,
   (pick_unique c6cat [] c6grp (rngOf [1, 0])).1,
   (pick_unique c6cat [] c6grp (rngOf [1, 1])).1]

/-- Outcomes of the flat-pool sampler `choose` on `c6cat` over its three
equally likely draws. -/
def c6flat : List (Option (String × Item)) :=
  [(choose c6grp c6cat (mkRng 0)).1,
   (choose c6grp c6cat (mkRng 1)).1,
   (choose c6grp c6cat (mkRng 2)).1]

/-- The prior catalog in the loader scenario. -/
def priorC7 : Catalog := [("Old", [⟨"o1", 1⟩])]

/-- Three CSV rows whose middle row has a non-integer Marks cell. -/
def rowsC7 : List CsvRow :=
  [⟨"T1", "q1", some 7⟩, ⟨"T2", "q2", none⟩, ⟨"T3", "q3", some 8⟩]

/-! ## Basic lemmas -/

theorem randChoice_mem {α : Type} {l : List α} {r r2 : Rng} {a : α}
    (h : randChoice l r = (some a, r2)) : a ∈ l := by
  cases l with
  | nil => simp [randChoice] at h
  | cons x xs =>
    simp only [randChoice, Prod.mk.injEq] at h
    exact List.getElem?_mem h.1

theorem randPick_mem {α : Type} (x : α) (xs : List α) (r : Rng) :
    (randPick x xs r).1 ∈ x :: xs := by
  unfold randPick
  rcases h : (x :: xs)[r.draw % (xs.length + 1)]? with _ | a
  · simp [List.getD_eq_getElem?_getD, h]
  · simpa [List.getD_eq_getElem?_getD, h] using List.getElem?_mem h

theorem pairsOf_mem {cat : Catalog} {topics : List String} {p : String × Item}
    (h : p ∈ pairsOf cat topics) : p.1 ∈ topics ∧ p.2 ∈ lookupD cat p.1 := by
  induction topics with
  | nil => simp [pairsOf] at h
  | cons t ts ih =>
    simp only [pairsOf, List.mem_append, List.mem_map] at h
    rcases h with ⟨q, hq, rfl⟩ | h
    · exact ⟨List.mem_cons_self _ _, hq⟩
    · exact ⟨List.mem_cons_of_mem _ (ih h).1, (ih h).2⟩

theorem pairsOf_eq_nil {cat : Catalog} {topics : List String}
    (h : pairsOf cat topics = []) : ∀ t ∈ topics, lookupD cat t = [] := by
  induction topics with
  | nil => simp
  | cons t ts ih =>
    simp only [pairsOf, List.append_eq_nil, List.map_eq_nil_iff] at h
    intro u hu
    rcases List.mem_cons.mp hu with rfl | hu
    · exact h.1
    · exact ih h.2 u hu

theorem sumMarks_append (l1 l2 : List (String × Item)) :
    sumMarks (l1 ++ l2) = sumMarks l1 + sumMarks l2 := by
  simp [sumMarks]

theorem sumMarks_single (p : String × Item) : sumMarks [p] = p.2.marks := by
  simp [sumMarks]

theorem countB6_append (l1 l2 : List (String × Item)) :
    countB6 (l1 ++ l2) = countB6 l1 + countB6 l2 := by
  simp [countB6, List.countP_append]

theorem countB6_single (p : String × Item) : countB6 [p] = b6inc p.2 := by
  by_cases h : p.2.marks < 6 <;> simp [countB6, b6inc, List.countP_cons, h]

theorem b6inc_le_one (q : Item) : b6inc q ≤ 1 := by
  by_cases h : q.marks < 6 <;> simp [b6inc, h]

theorem nodup_concat {α : Type} (l : List α) (a : α) :
    (l ++ [a]).Nodup ↔ l.Nodup ∧ a ∉ l := by
  constructor
  · intro h
    have h2 := (List.perm_append_singleton a l).nodup_iff.mp h
    rcases List.nodup_cons.mp h2 with ⟨h3, h4⟩
    exact ⟨h4, h3⟩
  · rintro ⟨h1, h2⟩
    exact (List.perm_append_singleton a l).nodup_iff.mpr (List.nodup_cons.mpr ⟨h2, h1⟩)

theorem finalCandidates_mem {cat : Catalog} {used : List String} {total : Int}
    {p : String × Item} (h : p ∈ finalCandidates cat used total) :
    p.1 ∉ used ∧ total + p.2.marks = 50 := by
  induction cat with
  | nil => simp [finalCandidates] at h
  | cons e rest ih =>
    rcases e with ⟨k, qs⟩
    simp only [finalCandidates, List.mem_append] at h
    rcases h with h | h
    · by_cases hk : k ∈ used
      · simp [hk] at h
      · simp only [hk, if_false, List.mem_map, List.mem_filter] at h
        rcases h with ⟨q, ⟨_, hq2⟩, rfl⟩
        exact ⟨hk, of_decide_eq_true hq2⟩
    · exact ih h

/-! ## Retry-loop lemmas -/

theorem runT_some {σ : Type} {attempt : Rng → Option σ × Rng} :
    ∀ {n : Nat} {r : Rng} {k j : Nat} {s : σ},
      runT attempt n r k = some (j, s) → ∃ r2, (attempt r2).1 = some s := by
  intro n
  induction n with
  | zero => intro r k j s h; simp [runT] at h
  | succ m ih =>
    intro r k j s h
    rcases ha : attempt r with ⟨o, r1⟩
    cases o with
    | some v =>
      refine ⟨r, ?_⟩
      rw [runT, ha] at h
      simp only [Option.some.injEq, Prod.mk.injEq] at h
      rw [ha, h.2]
    | none =>
      rw [runT, ha] at h
      exact ih h

theorem runT_none_of {σ : Type} {attempt : Rng → Option σ × Rng}
    (h : ∀ r, (attempt r).1 = none) :
    ∀ (n : Nat) (r : Rng) (k : Nat), runT attempt n r k = none := by
  intro n
  induction n with
  | zero => intro r k; rfl
  | succ m ih =>
    intro r k
    rcases ha : attempt r with ⟨o, r1⟩
    have := h r
    rw [ha] at this
    subst this
    rw [runT, ha]
    exact ih r1 (k + 1)

theorem countRun_of_none {σ : Type} {attempt : Rng → Option σ × Rng}
    (h : ∀ r, (attempt r).1 = none) :
    ∀ (n : Nat) (r : Rng), countRun attempt n r = n := by
  intro n
  induction n with
  | zero => intro r; rfl
  | succ m ih =>
    intro r
    rcases ha : attempt r with ⟨o, r1⟩
    have := h r
    rw [ha] at this
    subst this
    rw [countRun, ha]
    show 1 + countRun attempt m r1 = m + 1
    rw [ih r1, Nat.add_comm]

theorem runT_succ_of_some {σ : Type} {attempt : Rng → Option σ × Rng}
    {r : Rng} {s : σ} (h : (attempt r).1 = some s) (n k : Nat) :
    runT attempt (n + 1) r k = some (k, s) := by
  rcases ha : attempt r with ⟨o, r1⟩
  rw [ha] at h
  subst h
  rw [runT, ha]

/-! ## Soundness of one 9231 P3 attempt -/

theorem coreLoop_p3_spec (cat : Catalog) :
    ∀ (topics : List String) (st : St3) (r : Rng),
      ∃ ps : List (String × Item),
        (coreLoop_p3 cat topics st r).1.sel = st.sel ++ ps ∧
        (coreLoop_p3 cat topics st r).1.total = st.total + sumMarks ps ∧
        (coreLoop_p3 cat topics st r).1.b6 = st.b6 + countB6 ps ∧
        ps.map Prod.fst = topics.take ps.length ∧
        (∀ p ∈ ps, p.2 ∈ lookupD cat p.1) ∧
        ps.length ≤ topics.length ∧
        ((∃ t ∈ topics, lookupD cat t = []) → ps.length < topics.length) := by
  intro topics
  induction topics with
  | nil =>
    intro st r
    refine ⟨[], by simp [coreLoop_p3], by simp [coreLoop_p3, sumMarks],
      by simp [coreLoop_p3, countB6], rfl, by simp, Nat.le_refl 0, ?_⟩
    rintro ⟨t, ht, -⟩
    simp at ht
  | cons t ts ih =>
    intro st r
    cases hl : lookupD cat t with
    | nil =>
      refine ⟨[], by simp [coreLoop_p3, hl], by simp [coreLoop_p3, hl, sumMarks],
        by simp [coreLoop_p3, hl, countB6], rfl, by simp, Nat.zero_le _, ?_⟩
      intro _
      exact Nat.succ_pos _
    | cons q0 qs =>
      set q := (randPick q0 qs r).1 with hq
      obtain ⟨ps, h1, h2, h3, h4, h5, h6, h7⟩ :=
        ih ⟨st.sel ++ [(t, q)], t :: st.used, st.total + q.marks, st.b6 + b6inc q⟩
          (randPick q0 qs r).2
      have hstep : coreLoop_p3 cat (t :: ts) st r =
          coreLoop_p3 cat ts
            ⟨st.sel ++ [(t, q)], t :: st.used, st.total + q.marks, st.b6 + b6inc q⟩
            (randPick q0 qs r).2 := by
        rw [coreLoop_p3, hl]
      refine ⟨(t, q) :: ps, ?_, ?_, ?_, ?_, ?_, ?_, ?_⟩
      · rw [hstep, h1]
        simp
      · rw [hstep, h2]
        have : sumMarks ((t, q) :: ps) = q.marks + sumMarks ps := by
          have := sumMarks_append [(t, q)] ps
          simpa [sumMarks_single] using this
        rw [this]
        ring
      · rw [hstep, h3]
        have : countB6 ((t, q) :: ps) = b6inc q + countB6 ps := by
          have := countB6_append [(t, q)] ps
          simpa [countB6_single] using this
        rw [this]
        dsimp only
        omega
      · simp only [List.map_cons, List.length_cons, List.take_succ_cons, h4]
      · intro p hp
        rcases List.mem_cons.mp hp with rfl | hp
        · rw [hl]
          exact randPick_mem q0 qs r
        · exact h5 p hp
      · simpa using Nat.succ_le_succ h6
      · rintro ⟨u, hu, hlu⟩
        rcases List.mem_cons.mp hu with rfl | hu
        · rw [hl] at hlu
          cases hlu
        · have := h7 ⟨u, hu, hlu⟩
          simpa using Nat.succ_lt_succ this

theorem attempt_9231_p3_sound {cat : Catalog} {r : Rng} {sel : List (String × Item)}
    (h : (attempt_9231_p3 cat r).1 = some sel) :
    sumMarks sel = 50 ∧ sel.length = 7 ∧ countB6 sel ≤ 1 ∧
      ∃ (ps : List (String × Item)) (p : String × Item),
        sel = ps ++ [p] ∧ ps.map Prod.fst = coreTopics_p3 ∧ p.1 ∈ extraPool_p3 := by
  obtain ⟨ps, h1, h2, h3, h4, h5, h6, h7⟩ :=
    coreLoop_p3_spec cat coreTopics_p3 ⟨[], [], 0, 0⟩ r
  rcases hc : coreLoop_p3 cat coreTopics_p3 ⟨[], [], 0, 0⟩ r with ⟨st, r1⟩
  rw [hc] at h1 h2 h3
  dsimp only at h1 h2 h3
  simp only [List.nil_append] at h1
  unfold attempt_9231_p3 at h
  rw [hc] at h
  dsimp only at h
  by_cases hgate : st.sel.length < 6 ∨ st.total > 44
  · rw [if_pos hgate] at h
    simp at h
  · rw [if_neg hgate] at h
    rcases hrc : randChoice ((pairsOf cat extraPool_p3).filter
        (fun p => decide (st.total + p.2.marks = 50 ∧ st.b6 + b6inc p.2 ≤ 1))) r1
      with ⟨o, r2⟩
    rw [hrc] at h
    cases o with
    | none => simp at h
    | some p =>
      dsimp only at h
      have hsel : sel = st.sel ++ [p] := by
        simpa using h.symm
      have hp := randChoice_mem hrc
      rcases List.mem_filter.mp hp with ⟨hp1, hp2⟩
      have hp2' : st.total + p.2.marks = 50 ∧ st.b6 + b6inc p.2 ≤ 1 :=
        of_decide_eq_true hp2
      have hfst := (pairsOf_mem hp1).1
      push_neg at hgate
      have hlen6 : ps.length = 6 := by
        have hle : ps.length ≤ 6 := by
          simpa [coreTopics_p3] using h6
        have hge : 6 ≤ ps.length := by
          rw [h1] at hgate
          omega
        omega
      have hmap : ps.map Prod.fst = coreTopics_p3 := by
        rw [h4, hlen6]
        rfl
      refine ⟨?_, ?_, ?_, ps, p, ?_, hmap, hfst⟩
      · rw [hsel, sumMarks_append, sumMarks_single, h1]
        omega
      · rw [hsel, List.length_append, h1, hlen6]
        rfl
      · rw [hsel, countB6_append, countB6_single, h1]
        omega
      · rw [hsel, h1]

/-! ## Soundness of one 9231 P4 attempt -/

theorem sumMarks_cons (p : String × Item) (l : List (String × Item)) :
    sumMarks (p :: l) = p.2.marks + sumMarks l := by
  simpa [sumMarks_single] using sumMarks_append [p] l

theorem countB6_cons (p : String × Item) (l : List (String × Item)) :
    countB6 (p :: l) = b6inc p.2 + countB6 l := by
  simpa [countB6_single] using countB6_append [p] l

theorem choose_mem {g : List String} {cat : Catalog} {r r1 : Rng} {t : String}
    {q : Item} (h : choose g cat r = (some (t, q), r1)) :
    t ∈ g ∧ q ∈ lookupD cat t := by
  have := pairsOf_mem (randChoice_mem h)
  exact this

theorem stage1_p4_spec (cat : Catalog) :
    ∀ (groups : List (List String)) (st : St4) (r : Rng),
      ∃ ps : List (String × Item),
        (stage1_p4 cat groups st r).1.sel = st.sel ++ ps ∧
        (stage1_p4 cat groups st r).1.used = (ps.map Prod.fst).reverse ++ st.used ∧
        (stage1_p4 cat groups st r).1.b6 = st.b6 + countB6 ps ∧
        ps.length ≤ groups.length ∧
        List.Forall₂ (fun (p : String × Item) (g : List String) => p.1 ∈ g)
          ps (groups.take ps.length) := by
  intro groups
  induction groups with
  | nil =>
    intro st r
    exact ⟨[], by simp [stage1_p4], by simp [stage1_p4], by simp [stage1_p4, countB6],
      by simp, by simp⟩
  | cons g gs ih =>
    intro st r
    rcases hch : choose g cat r with ⟨o, r1⟩
    cases o with
    | none =>
      refine ⟨[], ?_, ?_, ?_, ?_, ?_⟩ <;>
        simp [stage1_p4, hch, countB6]
    | some p =>
      rcases p with ⟨t, q⟩
      obtain ⟨ps, h1, h2, h3, h4, h5⟩ :=
        ih ⟨st.sel ++ [(t, q)], t :: st.used, st.b6 + b6inc q⟩ r1
      have hstep : stage1_p4 cat (g :: gs) st r =
          stage1_p4 cat gs ⟨st.sel ++ [(t, q)], t :: st.used, st.b6 + b6inc q⟩ r1 := by
        rw [stage1_p4, hch]
      refine ⟨(t, q) :: ps, ?_, ?_, ?_, ?_, ?_⟩
      · rw [hstep, h1]
        simp
      · rw [hstep, h2]
        dsimp only
        simp [List.append_assoc]
      · rw [hstep, h3, countB6_cons]
        dsimp only
        omega
      · simpa using Nat.succ_le_succ h4
      · simp only [List.length_cons, List.take_succ_cons]
        exact List.Forall₂.cons (choose_mem hch).1 h5

/-! ## Topic-group disjointness facts for 9231 P4 -/

theorem chi_not_crv : ∀ x ∈ chiTopics, x ∉ crvTopics := by decide
theorem chi_not_pgf : ∀ x ∈ chiTopics, x ∉ pgfTopics := by decide
theorem chi_not_twci : ∀ x ∈ chiTopics, x ∉ twciTopics := by decide
theorem crv_not_pgf : ∀ x ∈ crvTopics, x ∉ pgfTopics := by decide
theorem crv_not_twci : ∀ x ∈ crvTopics, x ∉ twciTopics := by decide
theorem pgf_not_twci : ∀ x ∈ pgfTopics, x ∉ twciTopics := by decide

theorem attempt_9231_p4_sound {cat : Catalog} {r : Rng} {sel : List (String × Item)}
    (h : (attempt_9231_p4 cat r).1 = some sel) :
    sel.length = 6 ∧ sumMarks sel = 50 ∧ (sel.map Prod.fst).Nodup ∧
      countB6 (sel.take 5) ≤ 1 ∧ countB6 sel ≤ 2 := by
  obtain ⟨ps, hs1, hs2, hs3, hs4, hs5⟩ :=
    stage1_p4_spec cat [chiTopics, crvTopics, pgfTopics] ⟨[], [], 0⟩ r
  rcases hs : stage1_p4 cat [chiTopics, crvTopics, pgfTopics] ⟨[], [], 0⟩ r with ⟨st, r1⟩
  rw [hs] at hs1 hs2 hs3
  dsimp only at hs1 hs2 hs3
  simp only [List.nil_append, List.append_nil] at hs1 hs2
  unfold attempt_9231_p4 at h
  rw [hs] at h
  dsimp only at h
  split at h
  · simp at h
  · rename_i x t4 q4 r2 hch4
    clear x
    split at h
    · simp at h
    · rename_i hgate
      split at h
      · simp at h
      · rename_i y t5 q5 r3 hch5
        clear y
        split at h
        · simp at h
        · rename_i hb6
          split at h
          · simp at h
          · rename_i z t6 q6 r4 hch6
            clear z
            split at h
            · rename_i hfin
              have hsel : sel = st.sel ++ [(t4, q4)] ++ [(t5, q5)] ++ [(t6, q6)] := by
                simpa using h.symm
              have hps3 : ps.length = 3 := by
                rw [hs1] at hfin
                simp [List.length_append] at hfin
                omega
              obtain ⟨p1, p2, p3, hps⟩ := List.length_eq_three.mp hps3
              rw [hps] at hs5
              simp only [List.length_cons, List.length_nil, List.take_succ_cons,
                List.take_zero] at hs5
              rw [List.forall₂_cons] at hs5
              obtain ⟨ha1, hs5⟩ := hs5
              rw [List.forall₂_cons] at hs5
              obtain ⟨ha2, hs5⟩ := hs5
              rw [List.forall₂_cons] at hs5
              obtain ⟨ha3, -⟩ := hs5
              have ht4 := (choose_mem hch4).1
              have hm5 := randChoice_mem hch5
              rcases List.mem_filter.mp hm5 with ⟨hm5a, -⟩
              rcases List.mem_filter.mp (pairsOf_mem hm5a).1 with ⟨ht5twci, ht5dec⟩
              have ht5 : t5 ∉ t4 :: st.used := of_decide_eq_true ht5dec
              have ht6 : t6 ∉ t5 :: t4 :: st.used :=
                (finalCandidates_mem (randChoice_mem hch6)).1
              rw [hps] at hs1 hs2 hs3
              simp only [List.map_cons, List.map_nil, List.reverse_cons,
                List.reverse_nil, List.nil_append, List.cons_append] at hs2
              rw [hs2] at ht5 ht6
              simp only [List.mem_cons, List.not_mem_nil, or_false, not_or] at ht5 ht6
              have hsel6 : sel = [p1, p2, p3, (t4, q4), (t5, q5), (t6, q6)] := by
                rw [hsel, hs1]
                simp
              have hb : st.b6 = b6inc p1.2 + b6inc p2.2 + b6inc p3.2 := by
                rw [hs3]
                simp only [Nat.zero_add, countB6_cons]
                have : countB6 [] = 0 := rfl
                omega
              refine ⟨?_, ?_, ?_, ?_, ?_⟩
              · rw [hsel6]
                rfl
              · rw [hsel]
                exact hfin.2
              · rw [hsel6]
                simp only [List.map_cons, List.map_nil, List.nodup_cons,
                  List.mem_cons, List.mem_singleton, List.not_mem_nil, or_false,
                  not_or, List.nodup_nil, and_true]
                obtain ⟨ht5a, ht5b, ht5c, ht5d⟩ := ht5
                obtain ⟨ht6a, ht6b, ht6c, ht6d, ht6e⟩ := ht6
                refine ⟨⟨?_, ?_, ?_, ?_, ?_⟩, ⟨?_, ?_, ?_, ?_⟩, ⟨?_, ?_, ?_⟩, ⟨?_, ?_⟩, ?_⟩
                · intro e
                  exact chi_not_crv p1.1 ha1 (e ▸ ha2)
                · intro e
                  exact chi_not_pgf p1.1 ha1 (e ▸ ha3)
                · intro e
                  exact chi_not_twci p1.1 ha1 (e ▸ ht4)
                · exact (Ne.symm ht5d)
                · exact (Ne.symm ht6e)
                · intro e
                  exact crv_not_pgf p2.1 ha2 (e ▸ ha3)
                · intro e
                  exact crv_not_twci p2.1 ha2 (e ▸ ht4)
                · exact (Ne.symm ht5c)
                · exact (Ne.symm ht6d)
                · intro e
                  exact pgf_not_twci p3.1 ha3 (e ▸ ht4)
                · exact (Ne.symm ht5b)
                · exact (Ne.symm ht6c)
                · exact (Ne.symm ht5a)
                · exact (Ne.symm ht6b)
                · exact ⟨Ne.symm ht6a, not_false⟩
              · rw [hsel6]
                have hnil : countB6 ([] : List (String × Item)) = 0 := rfl
                simp only [List.take_succ_cons, List.take_zero]
                simp only [countB6_cons, hnil]
                omega
              · rw [hsel6]
                have hnil : countB6 ([] : List (String × Item)) = 0 := rfl
                simp only [countB6_cons, hnil]
                have h6le := b6inc_le_one q6
                omega
            · simp at h

/-! ## Soundness of one 9709 P3 attempt -/

theorem Inv97_push {st : St97} (h : Inv97 st) {t : String} (q : Item)
    (ht : t ∉ st.used) :
    Inv97 ⟨st.sel ++ [(t, q)], t :: st.used, st.total + q.marks⟩ := by
  obtain ⟨h1, h2, h3⟩ := h
  refine ⟨?_, ?_, ?_⟩
  · dsimp only
    rw [h1]
    simp
  · dsimp only
    rw [h2, sumMarks_append, sumMarks_single]
  · dsimp only
    rw [List.map_append]
    simp only [List.map_cons, List.map_nil]
    rw [nodup_concat]
    refine ⟨h3, ?_⟩
    intro hmem
    apply ht
    rw [h1]
    simpa using hmem

theorem mustTopics_nodup : mustTopics_9709.Nodup := by decide

theorem mustLoop_9709_spec (cat : Catalog) :
    ∀ (topics : List String) (st : St97) (r : Rng),
      ∃ ps : List (String × Item),
        (mustLoop_9709 cat topics st r).1.sel = st.sel ++ ps ∧
        (mustLoop_9709 cat topics st r).1.used = (ps.map Prod.fst).reverse ++ st.used ∧
        (mustLoop_9709 cat topics st r).1.total = st.total + sumMarks ps ∧
        ps.map Prod.fst = topics.take ps.length := by
  intro topics
  induction topics with
  | nil =>
    intro st r
    exact ⟨[], by simp [mustLoop_9709], by simp [mustLoop_9709],
      by simp [mustLoop_9709, sumMarks], rfl⟩
  | cons t ts ih =>
    intro st r
    cases hl : lookupD cat t with
    | nil =>
      exact ⟨[], by simp [mustLoop_9709, hl], by simp [mustLoop_9709, hl],
        by simp [mustLoop_9709, hl, sumMarks], rfl⟩
    | cons q0 qs =>
      set q := (randPick q0 qs r).1 with hq
      obtain ⟨ps, h1, h2, h3, h4⟩ :=
        ih ⟨st.sel ++ [(t, q)], t :: st.used, st.total + q.marks⟩ (randPick q0 qs r).2
      have hstep : mustLoop_9709 cat (t :: ts) st r =
          mustLoop_9709 cat ts
            ⟨st.sel ++ [(t, q)], t :: st.used, st.total + q.marks⟩
            (randPick q0 qs r).2 := by
        rw [mustLoop_9709, hl]
      refine ⟨(t, q) :: ps, ?_, ?_, ?_, ?_⟩
      · rw [hstep, h1]
        simp
      · rw [hstep, h2]
        dsimp only
        simp [List.append_assoc]
      · rw [hstep, h3, sumMarks_cons]
        dsimp only
        ring
      · simp only [List.map_cons, List.length_cons, List.take_succ_cons, h4]

theorem cnStep_Inv {cat : Catalog} {st st2 : St97} {r r2 : Rng}
    (h : cnStep_9709 cat st r = (st2, r2)) (hI : Inv97 st) : Inv97 st2 := by
  unfold cnStep_9709 at h
  cases hl : lookupD cat "Complex Numbers" with
  | nil =>
    rw [hl] at h
    cases h
    exact hI
  | cons q0 qs =>
    rw [hl] at h
    dsimp only at h
    by_cases hu : "Complex Numbers" ∈ st.used
    · rw [if_pos hu] at h
      cases h
      exact hI
    · rw [if_neg hu] at h
      have := Inv97_push hI (randPick q0 qs r).1 hu
      rw [(Prod.mk.injEq _ _ _ _).mp h |>.1] at this
      exact this

theorem pick_unique_sound {cat : Catalog} {used group : List String} {r r2 : Rng}
    {t : String} {q : Item}
    (h : pick_unique cat used group r = (some (t, q), r2)) :
    t ∈ group ∧ t ∉ used ∧ q ∈ lookupD cat t := by
  unfold pick_unique at h
  rcases hg : randChoice group r with ⟨og, rg⟩
  rw [hg] at h
  cases og with
  | none => simp at h
  | some t0 =>
    dsimp only at h
    rcases hq : randChoice ((lookupD cat t0).filter (fun _ => decide (t0 ∉ used))) rg
      with ⟨oq, rq⟩
    rw [hq] at h
    cases oq with
    | none => simp at h
    | some q0 =>
      simp only [Prod.mk.injEq, Option.some.injEq] at h
      obtain ⟨⟨rfl, rfl⟩, -⟩ := h
      have hm := randChoice_mem hq
      rcases List.mem_filter.mp hm with ⟨hq1, hq2⟩
      exact ⟨randChoice_mem hg, of_decide_eq_true hq2, hq1⟩

theorem groupsLoop_Inv (cat : Catalog) :
    ∀ (groups : List (List String)) (st : St97) (r : Rng),
      Inv97 st → Inv97 (groupsLoop_9709 cat groups st r).1 := by
  intro groups
  induction groups with
  | nil =>
    intro st r h
    simpa [groupsLoop_9709] using h
  | cons g gs ih =>
    intro st r h
    rcases hp : pick_unique cat st.used g r with ⟨o, r1⟩
    cases o with
    | none =>
      rw [groupsLoop_9709, hp]
      exact ih st r1 h
    | some p =>
      rcases p with ⟨t, q⟩
      rw [groupsLoop_9709, hp]
      exact ih _ r1 (Inv97_push h q (pick_unique_sound hp).2.1)

theorem fillerInner_Inv (t : String) :
    ∀ (qs : List Item) (st : St97), Inv97 st →
      (∀ sel, fillerInner_9709 t qs st = .inl sel →
        sumMarks sel = 75 ∧ 10 ≤ sel.length ∧ sel.length ≤ 11 ∧
          (sel.map Prod.fst).Nodup) ∧
      (∀ st2, fillerInner_9709 t qs st = .inr st2 → Inv97 st2) := by
  intro qs
  induction qs with
  | nil =>
    intro st h
    constructor
    · intro sel hsel
      simp [fillerInner_9709] at hsel
    · intro st2 h2
      rw [fillerInner_9709] at h2
      cases h2
      exact h
  | cons q rest ih =>
    intro st h
    by_cases hu : t ∈ st.used
    · have hstep : fillerInner_9709 t (q :: rest) st = fillerInner_9709 t rest st := by
        rw [fillerInner_9709, if_pos hu]
      rw [hstep]
      exact ih st h
    · by_cases hlen : st.sel.length ≥ 11
      · have hstep : fillerInner_9709 t (q :: rest) st = .inr st := by
          rw [fillerInner_9709, if_neg hu, if_pos hlen]
        rw [hstep]
        constructor
        · intro sel hsel
          cases hsel
        · intro st2 h2
          cases h2
          exact h
      · by_cases hadd : st.total + q.marks ≤ 75
        · have hI1 : Inv97 ⟨st.sel ++ [(t, q)], t :: st.used, st.total + q.marks⟩ :=
            Inv97_push h q hu
          by_cases hret : st.total + q.marks = 75 ∧
              10 ≤ (st.sel ++ [(t, q)]).length ∧ (st.sel ++ [(t, q)]).length ≤ 11
          · have hstep : fillerInner_9709 t (q :: rest) st = .inl (st.sel ++ [(t, q)]) := by
              rw [fillerInner_9709, if_neg hu, if_neg hlen]
              dsimp only
              rw [if_pos hadd]
              dsimp only
              rw [if_pos hret]
            rw [hstep]
            constructor
            · intro sel hsel
              cases hsel
              refine ⟨?_, hret.2.1, hret.2.2, hI1.2.2⟩
              rw [← hI1.2.1]
              exact hret.1
            · intro st2 h2
              cases h2
          · have hstep : fillerInner_9709 t (q :: rest) st =
                fillerInner_9709 t rest ⟨st.sel ++ [(t, q)], t :: st.used, st.total + q.marks⟩ := by
              rw [fillerInner_9709, if_neg hu, if_neg hlen]
              dsimp only
              rw [if_pos hadd]
              dsimp only
              rw [if_neg hret]
            rw [hstep]
            exact ih _ hI1
        · by_cases hret : st.total = 75 ∧ 10 ≤ st.sel.length ∧ st.sel.length ≤ 11
          · have hstep : fillerInner_9709 t (q :: rest) st = .inl st.sel := by
              rw [fillerInner_9709, if_neg hu, if_neg hlen]
              dsimp only
              rw [if_neg hadd]
              rw [if_pos hret]
            rw [hstep]
            constructor
            · intro sel hsel
              cases hsel
              refine ⟨?_, hret.2.1, hret.2.2, h.2.2⟩
              rw [← h.2.1]
              exact hret.1
            · intro st2 h2
              cases h2
          · have hstep : fillerInner_9709 t (q :: rest) st = fillerInner_9709 t rest st := by
              rw [fillerInner_9709, if_neg hu, if_neg hlen]
              dsimp only
              rw [if_neg hadd]
              rw [if_neg hret]
            rw [hstep]
            exact ih st h

theorem fillerOuter_Inv (cat : Catalog) :
    ∀ (topics : List String) (st : St97), Inv97 st →
      (∀ sel, fillerOuter_9709 cat topics st = .inl sel →
        sumMarks sel = 75 ∧ 10 ≤ sel.length ∧ sel.length ≤ 11 ∧
          (sel.map Prod.fst).Nodup) ∧
      (∀ st2, fillerOuter_9709 cat topics st = .inr st2 → Inv97 st2) := by
  intro topics
  induction topics with
  | nil =>
    intro st h
    constructor
    · intro sel hsel
      cases hsel
    · intro st2 h2
      rw [fillerOuter_9709] at h2
      cases h2
      exact h
  | cons t ts ih =>
    intro st h
    rcases hi : fillerInner_9709 t (lookupD cat t) st with sel1 | st1
    · have hstep : fillerOuter_9709 cat (t :: ts) st = .inl sel1 := by
        rw [fillerOuter_9709, hi]
      rw [hstep]
      constructor
      · intro sel hsel
        cases hsel
        exact (fillerInner_Inv t (lookupD cat t) st h).1 sel1 hi
      · intro st2 h2
        cases h2
    · have hstep : fillerOuter_9709 cat (t :: ts) st = fillerOuter_9709 cat ts st1 := by
        rw [fillerOuter_9709, hi]
      rw [hstep]
      exact ih st1 ((fillerInner_Inv t (lookupD cat t) st h).2 st1 hi)

theorem attempt_9709_p3_sound {cat : Catalog} {r : Rng} {sel : List (String × Item)}
    (h : (attempt_9709_p3 cat r).1 = some sel) :
    sumMarks sel = 75 ∧ 10 ≤ sel.length ∧ sel.length ≤ 11 ∧
      (sel.map Prod.fst).Nodup := by
  obtain ⟨ps, hm1, hm2, hm3, hm4⟩ :=
    mustLoop_9709_spec cat mustTopics_9709 ⟨[], [], 0⟩ r
  rcases h1 : mustLoop_9709 cat mustTopics_9709 ⟨[], [], 0⟩ r with ⟨st1, r1⟩
  rw [h1] at hm1 hm2 hm3
  dsimp only at hm1 hm2 hm3
  simp only [List.nil_append, List.append_nil] at hm1 hm2 hm3
  have hI1 : Inv97 st1 := by
    refine ⟨?_, ?_, ?_⟩
    · rw [hm2, hm1]
    · rw [hm3, hm1]
      simp
    · rw [hm1, hm4]
      exact (List.take_sublist _ _).nodup mustTopics_nodup
  rcases h2 : cnStep_9709 cat st1 r1 with ⟨st2, r2⟩
  have hI2 : Inv97 st2 := cnStep_Inv h2 hI1
  rcases h3 : groupsLoop_9709 cat oneOfSets_9709 st2 r2 with ⟨st3, r3⟩
  have hI3 : Inv97 st3 := by
    have := groupsLoop_Inv cat oneOfSets_9709 st2 r2 hI2
    rw [h3] at this
    exact this
  unfold attempt_9709_p3 at h
  rw [h1] at h
  dsimp only at h
  rw [h2] at h
  dsimp only at h
  rw [h3] at h
  dsimp only at h
  rcases h4 : fillerOuter_9709 cat
      (fillerPool_9709.filter (fun t => decide (t ∉ st3.used))) st3 with sel1 | st4
  · rw [h4] at h
    dsimp only at h
    have hsel : sel1 = sel := by
      simpa using h
    rw [← hsel]
    exact (fillerOuter_Inv cat _ st3 hI3).1 sel1 h4
  · rw [h4] at h
    dsimp only at h
    have hI4 : Inv97 st4 := (fillerOuter_Inv cat _ st3 hI3).2 st4 h4
    split at h
    · rename_i hfin
      have hsel : st4.sel = sel := by
        simpa using h
      rw [← hsel]
      exact ⟨by rw [← hI4.2.1]; exact hfin.1, hfin.2.1, hfin.2.2, hI4.2.2⟩
    · simp at h

/-! ## Select-level soundness -/

theorem select_9231_p4_sound {cat : Catalog} {r : Rng} {sel : List (String × Item)}
    (h : random_select_9231_p4 cat r = some sel) :
    sel.length = 6 ∧ sumMarks sel = 50 ∧ (sel.map Prod.fst).Nodup ∧
      countB6 (sel.take 5) ≤ 1 ∧ countB6 sel ≤ 2 := by
  unfold random_select_9231_p4 random_select_9231_p4_traced at h
  rcases Option.map_eq_some'.mp h with ⟨⟨k, s⟩, hk, hs⟩
  dsimp only at hs
  subst hs
  obtain ⟨r2, ha⟩ := runT_some hk
  exact attempt_9231_p4_sound ha

theorem select_9231_p3_sound {cat : Catalog} {r : Rng} {sel : List (String × Item)}
    (h : random_select_9231_p3 cat r = some sel) :
    sumMarks sel = 50 ∧ sel.length = 7 ∧ countB6 sel ≤ 1 ∧
      ∃ (ps : List (String × Item)) (p : String × Item),
        sel = ps ++ [p] ∧ ps.map Prod.fst = coreTopics_p3 ∧ p.1 ∈ extraPool_p3 := by
  unfold random_select_9231_p3 random_select_9231_p3_traced at h
  rcases Option.map_eq_some'.mp h with ⟨⟨k, s⟩, hk, hs⟩
  dsimp only at hs
  subst hs
  obtain ⟨r2, ha⟩ := runT_some hk
  exact attempt_9231_p3_sound ha

theorem select_9709_p3_sound {cat : Catalog} {r : Rng} {sel : List (String × Item)}
    (h : random_select_9709_p3 cat r = some sel) :
    sumMarks sel = 75 ∧ 10 ≤ sel.length ∧ sel.length ≤ 11 ∧
      (sel.map Prod.fst).Nodup := by
  unfold random_select_9709_p3 random_select_9709_p3_traced at h
  rcases Option.map_eq_some'.mp h with ⟨⟨k, s⟩, hk, hs⟩
  dsimp only at hs
  subst hs
  obtain ⟨r2, ha⟩ := runT_some hk
  exact attempt_9709_p3_sound ha

/-! ## Abandonment on an empty 9231 P3 core topic -/

theorem attempt_9231_p3_none_of_empty {cat : Catalog} {t : String}
    (ht : t ∈ coreTopics_p3) (hl : lookupD cat t = []) (r : Rng) :
    (attempt_9231_p3 cat r).1 = none := by
  obtain ⟨ps, h1, h2, h3, h4, h5, h6, h7⟩ :=
    coreLoop_p3_spec cat coreTopics_p3 ⟨[], [], 0, 0⟩ r
  rcases hc : coreLoop_p3 cat coreTopics_p3 ⟨[], [], 0, 0⟩ r with ⟨st, r1⟩
  rw [hc] at h1
  dsimp only at h1
  simp only [List.nil_append] at h1
  have hlt : ps.length < 6 := by
    have := h7 ⟨t, ht, hl⟩
    simpa [coreTopics_p3] using this
  unfold attempt_9231_p3
  rw [hc]
  dsimp only
  have hcond : st.sel.length < 6 ∨ st.total > 44 := by
    left
    rw [h1]
    omega
  rw [if_pos hcond]

theorem select_9231_p3_fails_of_empty {cat : Catalog} {t : String}
    (ht : t ∈ coreTopics_p3) (hl : lookupD cat t = []) (r : Rng) :
    random_select_9231_p3 cat r = none ∧
      countRun (attempt_9231_p3 cat) 1000 r = 1000 := by
  have hnone : ∀ r2, (attempt_9231_p3 cat r2).1 = none := fun r2 =>
    attempt_9231_p3_none_of_empty ht hl r2
  constructor
  · unfold random_select_9231_p3 random_select_9231_p3_traced
    rw [runT_none_of hnone]
    rfl
  · exact countRun_of_none hnone 1000 r

/-! ## Concrete 9231 P3 scenarios and sampler comparison lemmas -/

theorem attempt_9231_p3_catC4_none (r : Rng) :
    (attempt_9231_p3 catC4 r).1 = none := by
  simp [attempt_9231_p3, coreLoop_p3, catC4, coreTopics_p3, lookupD, randPick,
    Nat.mod_one, List.getD]

theorem attempt_9231_p3_catA4 (r : Rng) :
    (attempt_9231_p3 catA4 r).1 = some selA4 := by
  simp [attempt_9231_p3, coreLoop_p3, catA4, coreTopics_p3, extraPool_p3, lookupD,
    randPick, randChoice, pairsOf, Nat.mod_one, List.getD, b6inc, selA4, sumMarks]

theorem map_getElem_range {α : Type} (l : List α) :
    (List.range l.length).map (fun d => l[d]?) = l.map some := by
  induction l with
  | nil => rfl
  | cons x xs ih =>
    rw [List.length_cons, List.range_succ_eq_map]
    simp only [List.map_cons, List.map_map]
    congr 1
    · simp
    · rw [← ih]
      apply List.map_congr_left
      intro d _
      simp [Function.comp]

theorem countP_pairsOf_eq_zero (cat : Catalog) {g : List String} {t : String}
    (ht : t ∉ g) : (pairsOf cat g).countP (fun p => decide (p.1 = t)) = 0 := by
  rw [List.countP_eq_zero]
  intro p hp
  simp only [decide_eq_true_eq]
  intro e
  apply ht
  rw [← e]
  exact (pairsOf_mem hp).1

theorem countP_pairsOf (cat : Catalog) :
    ∀ (g : List String) (t : String), g.Nodup → t ∈ g →
      (pairsOf cat g).countP (fun p => decide (p.1 = t)) = (lookupD cat t).length := by
  intro g
  induction g with
  | nil =>
    intro t _ ht
    cases ht
  | cons a gs ih =>
    intro t hnd ht
    have hpa : pairsOf cat (a :: gs) =
        ((lookupD cat a).map (fun q => (a, q))) ++ pairsOf cat gs := rfl
    rw [hpa, List.countP_append, List.countP_map]
    rcases List.mem_cons.mp ht with rfl | htg
    · have hz := countP_pairsOf_eq_zero cat (List.nodup_cons.mp hnd).1
      rw [hz, Nat.add_zero]
      apply List.countP_eq_length.mpr
      intro q _
      simp [Function.comp]
    · have ha : a ≠ t := by
        rintro rfl
        exact (List.nodup_cons.mp hnd).1 htg
      have h0 : (lookupD cat a).countP
          ((fun p : String × Item => decide (p.1 = t)) ∘ fun q => (a, q)) = 0 := by
        rw [List.countP_eq_zero]
        intro q _
        simp [Function.comp, ha]
      rw [h0, Nat.zero_add]
      exact ih t (List.nodup_cons.mp hnd).2 htg

theorem choose_uniform (cat : Catalog) (g : List String) (t : String)
    (hg : g.Nodup) (ht : t ∈ g) :
    ((List.range (pairsOf cat g).length).countP
        (fun d => catIs t ((choose g cat (mkRng d)).1))) =
      (lookupD cat t).length := by
  by_cases hnil : pairsOf cat g = []
  · have := pairsOf_eq_nil hnil t ht
    simp [hnil, this]
  · have hlen : ∀ d ∈ List.range (pairsOf cat g).length,
        catIs t ((choose g cat (mkRng d)).1) = catIs t ((pairsOf cat g)[d]?) := by
      intro d hd
      have hdlt := List.mem_range.mp hd
      unfold choose randChoice
      rcases hp : pairsOf cat g with _ | ⟨x, xs⟩
      · exact absurd hp hnil
      · rw [hp] at hdlt
        simp only [List.length_cons] at hdlt
        dsimp only [Rng.draw, mkRng]
        rw [Nat.mod_eq_of_lt hdlt]
    have hlen2 : ∀ d ∈ List.range (pairsOf cat g).length,
        (catIs t ((choose g cat (mkRng d)).1) = true ↔
          catIs t ((pairsOf cat g)[d]?) = true) := by
      intro d hd
      rw [hlen d hd]
    rw [List.countP_congr hlen2]
    have hmap : (List.range (pairsOf cat g).length).countP
        (fun d => catIs t ((pairsOf cat g)[d]?)) =
          (pairsOf cat g).countP (fun a => catIs t (some a)) := by
      rw [show (fun d => catIs t ((pairsOf cat g)[d]?)) =
          (fun o => catIs t o) ∘ (fun d => (pairsOf cat g)[d]?) from rfl]
      rw [← List.countP_map, map_getElem_range, List.countP_map]
      exact List.countP_congr fun a _ => Iff.rfl
    rw [hmap]
    have hsame : (pairsOf cat g).countP (fun a => catIs t (some a)) =
        (pairsOf cat g).countP (fun p => decide (p.1 = t)) := rfl
    rw [hsame]
    exact countP_pairsOf cat g t hg ht

theorem pick_unique_category_first {cat : Catalog} {used group : List String}
    {r : Rng} {t : String} {q : Item}
    (h0 : (pick_unique cat used group r).1 = some (t, q)) :
    group[r.draw % group.length]? = some t ∧ t ∉ used ∧ q ∈ lookupD cat t := by
  rcases hfull : pick_unique cat used group r with ⟨o, rr⟩
  rw [hfull] at h0
  dsimp only at h0
  subst h0
  have h := hfull
  clear hfull
  rcases group with _ | ⟨g0, gs⟩
  · unfold pick_unique randChoice at h
    simp at h
  · unfold pick_unique at h
    have hrc : randChoice (g0 :: gs) r = ((g0 :: gs)[r.draw % (gs.length + 1)]?, r.next) := rfl
    rw [hrc] at h
    cases hidx : (g0 :: gs)[r.draw % (gs.length + 1)]? with
    | none =>
      rw [hidx] at h
      simp at h
    | some t0 =>
      rw [hidx] at h
      dsimp only at h
      rcases hq : randChoice ((lookupD cat t0).filter (fun _ => decide (t0 ∉ used)))
          r.next with ⟨oq, rq⟩
      rw [hq] at h
      cases oq with
      | none => simp at h
      | some q0 =>
        simp only [Prod.mk.injEq, Option.some.injEq] at h
        obtain ⟨⟨rfl, rfl⟩, -⟩ := h
        have hm := randChoice_mem hq
        rcases List.mem_filter.mp hm with ⟨hq1, hq2⟩
        exact ⟨hidx, of_decide_eq_true hq2, hq1⟩

/-! ## Loader lemmas -/

theorem loadLoop_partial (bad : CsvRow) (hbad : bad.marks = none) :
    ∀ (rows1 rows2 : List CsvRow) (cat : Catalog),
      (∀ row ∈ rows1, row.marks ≠ none) →
      loadLoop cat (rows1 ++ bad :: rows2) = ((loadLoop cat rows1).1, true) := by
  intro rows1
  induction rows1 with
  | nil =>
    intro rows2 cat _
    simp only [List.nil_append]
    show loadLoop cat (bad :: rows2) = ((cat, false).1, true)
    rw [loadLoop, hbad]
  | cons row rest ih =>
    intro rows2 cat hall
    have hv : row.marks ≠ none := hall row (List.mem_cons_self _ _)
    rcases hm : row.marks with _ | m
    · exact absurd hm hv
    · have hL : loadLoop cat ((row :: rest) ++ bad :: rows2) =
          loadLoop (catalogInsert cat row.topic ⟨row.qindex, m⟩) (rest ++ bad :: rows2) := by
        rw [List.cons_append, loadLoop, hm]
      have hR : loadLoop cat (row :: rest) =
          loadLoop (catalogInsert cat row.topic ⟨row.qindex, m⟩) rest := by
        rw [loadLoop, hm]
      rw [hL, hR]
      exact ih rows2 _ (fun r2 hr => hall r2 (List.mem_cons_of_mem _ hr))

theorem load_question_data_partial {paper : String} (hp : paper ∈ validPapers)
    (prior : Catalog) {bad : CsvRow} (hbad : bad.marks = none)
    {rows1 rows2 : List CsvRow} (hok : ∀ row ∈ rows1, row.marks ≠ none) :
    load_question_data prior paper true (rows1 ++ bad :: rows2) =
      ((loadLoop [] rows1).1, true) := by
  unfold load_question_data
  rw [if_neg (by simpa using hp)]
  rw [if_neg (by simp)]
  exact loadLoop_partial bad hbad rows1 rows2 [] hok

/-! ## Claim theorems -/

theorem coreTopics_p3_nodup : coreTopics_p3.Nodup := by decide

/-- Claim C1: for every value returned as a successful selection by any
of the three selection routines, the sum of the marks of the selected
items equals the routine's target exactly (50, 50, and 75). -/
theorem claim_C1_total_eq_target :
    (∀ (cat : Catalog) (r : Rng) (sel : List (String × Item)),
        random_select_9231_p4 cat r = some sel → sumMarks sel = 50) ∧
    (∀ (cat : Catalog) (r : Rng) (sel : List (String × Item)),
        random_select_9231_p3 cat r = some sel → sumMarks sel = 50) ∧
    (∀ (cat : Catalog) (r : Rng) (sel : List (String × Item)),
        random_select_9709_p3 cat r = some sel → sumMarks sel = 75) :=
  ⟨fun _ _ _ h => (select_9231_p4_sound h).2.1,
   fun _ _ _ h => (select_9231_p3_sound h).1,
   fun _ _ _ h => (select_9709_p3_sound h).1⟩

/-- Witness for C1: concrete successful runs of the three routines. -/
theorem claim_C1_witness :
    sumMarks selW4 = 50 ∧ sumMarks selW3 = 50 ∧ sumMarks selW9 = 75 :=
  ⟨claim_C1_total_eq_target.1 catW4 rng0 selW4 (by decide),
   claim_C1_total_eq_target.2.1 catW3 rng0 selW3 (by decide),
   claim_C1_total_eq_target.2.2 catW9 rng0 selW9 (by decide)⟩

/-- Counterexample to C2 as stated: on `catC2` the 9231 P3 routine
returns a successful selection in which the category "Circular Motion"
appears twice — the extra pick is not filtered against used topics. -/
theorem claim_C2_counterexample :
    random_select_9231_p3 catC2 rng0 = some selC2 ∧
      ¬ (selC2.map Prod.fst).Nodup :=
  ⟨by decide, by decide⟩

/-- Claim C2 (amended): no category appears twice in successful
selections of `random_select_9231_p4` and `random_select_9709_p3`; in
`random_select_9231_p3` the six core picks have pairwise distinct
categories and the extra pick's category lies in the extra pool, but
that pool shares "Circular Motion" with the core topics, so the extra
pick may repeat a core category. -/
theorem claim_C2_amended :
    (∀ (cat : Catalog) (r : Rng) (sel : List (String × Item)),
        random_select_9231_p4 cat r = some sel → (sel.map Prod.fst).Nodup) ∧
    (∀ (cat : Catalog) (r : Rng) (sel : List (String × Item)),
        random_select_9709_p3 cat r = some sel → (sel.map Prod.fst).Nodup) ∧
    (∀ (cat : Catalog) (r : Rng) (sel : List (String × Item)),
        random_select_9231_p3 cat r = some sel →
          ∃ (ps : List (String × Item)) (p : String × Item),
            sel = ps ++ [p] ∧ ps.map Prod.fst = coreTopics_p3 ∧
              (ps.map Prod.fst).Nodup ∧ p.1 ∈ extraPool_p3) := by
  refine ⟨fun _ _ _ h => (select_9231_p4_sound h).2.2.1,
    fun _ _ _ h => (select_9709_p3_sound h).2.2.2, ?_⟩
  intro cat r sel h
  obtain ⟨-, -, -, ps, p, h1, h2, h3⟩ := select_9231_p3_sound h
  exact ⟨ps, p, h1, h2, h2 ▸ coreTopics_p3_nodup, h3⟩

/-- Witness for C2 (amended): concrete successful runs. -/
theorem claim_C2_witness :
    (selW4.map Prod.fst).Nodup ∧ (selW9.map Prod.fst).Nodup ∧
      ∃ (ps : List (String × Item)) (p : String × Item),
        selC2 = ps ++ [p] ∧ ps.map Prod.fst = coreTopics_p3 ∧
          (ps.map Prod.fst).Nodup ∧ p.1 ∈ extraPool_p3 :=
  ⟨claim_C2_amended.1 catW4 rng0 selW4 (by decide),
   claim_C2_amended.2.1 catW9 rng0 selW9 (by decide),
   claim_C2_amended.2.2 catC2 rng0 selC2 (by decide)⟩

/-- Counterexample to C3 as stated: on `catC3` the 9231 P4 routine
succeeds with two selected items of marks below 6 (limit 1) — the final
exact-completion pick is not counted against `below_6`. -/
theorem claim_C3_counterexample :
    random_select_9231_p4 catC3 rng0 = some selC3 ∧ countB6 selC3 = 2 :=
  ⟨by decide, by decide⟩

/-- Claim C3 (amended): in `random_select_9231_p3` every successful
selection has at most 1 item below marks 6; in `random_select_9231_p4`
the bound holds for the first five picks only (the exact-completion
sixth pick is not counted), so a successful selection has at most 2
items below 6. -/
theorem claim_C3_amended :
    (∀ (cat : Catalog) (r : Rng) (sel : List (String × Item)),
        random_select_9231_p3 cat r = some sel → countB6 sel ≤ 1) ∧
    (∀ (cat : Catalog) (r : Rng) (sel : List (String × Item)),
        random_select_9231_p4 cat r = some sel →
          countB6 (sel.take 5) ≤ 1 ∧ countB6 sel ≤ 2) :=
  ⟨fun _ _ _ h => (select_9231_p3_sound h).2.2.1,
   fun _ _ _ h => ⟨(select_9231_p4_sound h).2.2.2.1,
     (select_9231_p4_sound h).2.2.2.2⟩⟩

/-- Witness for C3 (amended): concrete successful runs. -/
theorem claim_C3_witness :
    countB6 selW3 ≤ 1 ∧ countB6 (selC3.take 5) ≤ 1 ∧ countB6 selC3 ≤ 2 :=
  ⟨claim_C3_amended.1 catW3 rng0 selW3 (by decide),
   (claim_C3_amended.2 catC3 rng0 selC3 (by decide)).1,
   (claim_C3_amended.2 catC3 rng0 selC3 (by decide)).2⟩

/-- Counterexample to C4 as stated: on the spec's scenario catalog
(six required-once items of weight 8, extra pick of weight 2) the 9231
P3 routine returns failure — the core total 48 trips the intermediate
`total > 44` abandon check on every attempt. -/
theorem claim_C4_counterexample : random_select_9231_p3 catC4 rng0 = none := by
  unfold random_select_9231_p3 random_select_9231_p3_traced
  rw [runT_none_of (fun r2 => attempt_9231_p3_catC4_none r2) 1000 rng0 1]
  rfl

/-- Claim C4 (amended): the 6-times-8-plus-2 scenario is abandoned by
the `total > 44` budget check, but the analogous scenario whose six
required picks total 42 (weight 7 each) with an extra pick of weight 8
reaches total 50 with 7 items and succeeds, for every generator. -/
theorem claim_C4_amended (r : Rng) :
    random_select_9231_p3 catA4 r = some selA4 ∧
      sumMarks selA4 = 50 ∧ selA4.length = 7 := by
  refine ⟨?_, by decide, by decide⟩
  unfold random_select_9231_p3 random_select_9231_p3_traced
  have h1000 : (1000 : Nat) = 999 + 1 := rfl
  rw [h1000, runT_succ_of_some (attempt_9231_p3_catA4 r) 999 1]
  rfl

/-- Counterexample to C5 as stated: `catC5` has no items in the
required-once topic "Integration by Parts", yet `random_select_9709_p3`
succeeds — the `break` skips the remaining required topics but the
attempt continues instead of being abandoned. -/
theorem claim_C5_counterexample :
    lookupD catC5 "Integration by Parts" = [] ∧
      "Integration by Parts" ∈ mustTopics_9709 ∧
      random_select_9709_p3 catC5 rng0 = some selC5 :=
  ⟨by decide, by decide, by decide⟩

/-- Claim C5 (amended): in `random_select_9231_p3` an empty required
core topic abandons every attempt and the routine returns failure after
exactly 1000 attempts; in `random_select_9709_p3` an empty required
topic merely breaks out of the required-topics loop and the attempt can
still succeed. -/
theorem claim_C5_amended :
    ∀ (cat : Catalog) (r : Rng) (t : String),
      t ∈ coreTopics_p3 → lookupD cat t = [] →
        random_select_9231_p3 cat r = none ∧
          countRun (attempt_9231_p3 cat) 1000 r = 1000 :=
  fun _ r _ ht hl => select_9231_p3_fails_of_empty ht hl r

/-- Witness for C5 (amended): the empty catalog at "Projectile Motion". -/
theorem claim_C5_witness :
    "Projectile Motion" ∈ coreTopics_p3 ∧
      (random_select_9231_p3 [] rng0 = none ∧
        countRun (attempt_9231_p3 []) 1000 rng0 = 1000) :=
  ⟨by decide, claim_C5_amended [] rng0 "Projectile Motion" (by decide) rfl⟩

/-- Counterexample to C6 as stated: the 9709 group pass `pick_unique`
is not flat-pool sampling.  With topic A absent it returns no pick even
though the flat pool is nonempty; and over the four equally likely draw
profiles on a group where A has two items and B one, it picks B with
frequency 2/4 while flat-pool sampling picks B with frequency 1/3. -/
theorem claim_C6_counterexample :
    ((pick_unique c6cat2 [] c6grp rng0).1 = none ∧ pairsOf c6cat2 c6grp ≠ []) ∧
      c6twoStage.countP (catIs "TopicB") * 3 ≠
        c6flat.countP (catIs "TopicB") * 4 :=
  ⟨⟨by decide, by decide⟩, by decide⟩

/-- Claim C6 (amended): the 9231 P4 `choose` draws uniformly over the
flat pool of pairs — over the pool-size draw range, each category is
selected as many times as it has items — whereas the 9709 `pick_unique`
first draws a category uniformly from the whole group list (the first
draw alone fixes the category) and only then an item within it. -/
theorem claim_C6_amended :
    (∀ (cat : Catalog) (g : List String) (t : String), g.Nodup → t ∈ g →
        ((List.range (pairsOf cat g).length).countP
          (fun d => catIs t ((choose g cat (mkRng d)).1))) =
            (lookupD cat t).length) ∧
    (∀ (cat : Catalog) (used group : List String) (r : Rng) (t : String) (q : Item),
        (pick_unique cat used group r).1 = some (t, q) →
          group[r.draw % group.length]? = some t ∧ t ∉ used ∧ q ∈ lookupD cat t) :=
  ⟨choose_uniform, fun _ _ _ _ _ _ h => pick_unique_category_first h⟩

/-- Witness for C6 (amended) at the concrete two-topic group. -/
theorem claim_C6_witness :
    ((List.range (pairsOf c6cat c6grp).length).countP
        (fun d => catIs "TopicB" ((choose c6grp c6cat (mkRng d)).1))) =
      (lookupD c6cat "TopicB").length ∧
    (c6grp[(rngOf [0, 0]).draw % c6grp.length]? = some "TopicA" ∧
      "TopicA" ∉ ([] : List String) ∧
      (⟨"a1", 5⟩ : Item) ∈ lookupD c6cat "TopicA") :=
  ⟨claim_C6_amended.1 c6cat c6grp "TopicB" (by decide) (by decide),
   claim_C6_amended.2 c6cat [] c6grp (rngOf [0, 0]) "TopicA" ⟨"a1", 5⟩ (by decide)⟩

/-- Counterexample to C7 as stated: loading rows whose middle row fails
to parse leaves the caller-visible catalog half-populated — it contains
the first row's topic but not the third's, and is neither the previous
catalog nor empty. -/
theorem claim_C7_counterexample :
    (load_question_data priorC7 "9231 Paper 4" true rowsC7).2 = true ∧
      (load_question_data priorC7 "9231 Paper 4" true rowsC7).1 =
        [("T1", [⟨"q1", 7⟩])] ∧
      (load_question_data priorC7 "9231 Paper 4" true rowsC7).1 ≠ priorC7 ∧
      (load_question_data priorC7 "9231 Paper 4" true rowsC7).1 ≠ [] ∧
      lookupD (load_question_data priorC7 "9231 Paper 4" true rowsC7).1 "T3" = [] :=
  ⟨by decide, by decide, by decide, by decide, by decide⟩

/-- Claim C7 (amended): the previous catalog is cleared before reading
begins, and a row on which `int()` raises leaves the caller-visible
catalog holding exactly the successfully parsed prefix of the rows,
with the exception propagating — not the previous catalog and not the
fully loaded one. -/
theorem claim_C7_amended :
    ∀ (prior : Catalog) (paper : String) (rows1 rows2 : List CsvRow)
      (bad : CsvRow), paper ∈ validPapers → bad.marks = none →
      (∀ row ∈ rows1, row.marks ≠ none) →
      load_question_data prior paper true (rows1 ++ bad :: rows2) =
        ((loadLoop [] rows1).1, true) :=
  fun prior _ _ _ _ hp hbad hok => load_question_data_partial hp prior hbad hok

/-- Witness for C7 (amended) at the concrete rows of `rowsC7`. -/
theorem claim_C7_witness :
    "9231 Paper 4" ∈ validPapers ∧
      load_question_data priorC7 "9231 Paper 4" true
          ([⟨"T1", "q1", some 7⟩] ++ ⟨"T2", "q2", none⟩ :: [⟨"T3", "q3", some 8⟩]) =
        ((loadLoop [] [⟨"T1", "q1", some 7⟩]).1, true) :=
  ⟨by decide,
   claim_C7_amended priorC7 "9231 Paper 4" [⟨"T1", "q1", some 7⟩]
     [⟨"T3", "q3", some 8⟩] ⟨"T2", "q2", none⟩ (by decide) rfl
     (by intro row hr; simp only [List.mem_singleton] at hr; rw [hr]; decide)⟩

/-- Claim C8: the selection routines are deterministic functions of the
generator state and the catalog — equal inputs give identical results,
including the succeeding attempt number. -/
theorem claim_C8_deterministic :
    ∀ (c1 c2 : Catalog) (r1 r2 : Rng), c1 = c2 → r1 = r2 →
      random_select_9231_p4_traced c1 r1 = random_select_9231_p4_traced c2 r2 ∧
      random_select_9231_p3_traced c1 r1 = random_select_9231_p3_traced c2 r2 ∧
      random_select_9709_p3_traced c1 r1 = random_select_9709_p3_traced c2 r2 := by
  intro c1 c2 r1 r2 hc hr
  subst hc
  subst hr
  exact ⟨rfl, rfl, rfl⟩

/-- Witness for C8 at a concrete catalog and generator. -/
theorem claim_C8_witness :
    random_select_9231_p4_traced catW4 rng0 = random_select_9231_p4_traced catW4 rng0 ∧
    random_select_9231_p3_traced catW4 rng0 = random_select_9231_p3_traced catW4 rng0 ∧
    random_select_9709_p3_traced catW4 rng0 = random_select_9709_p3_traced catW4 rng0 :=
  claim_C8_deterministic catW4 catW4 rng0 rng0 rfl rfl

/-- Claim C9: every successful selection has exactly 6 items for 9231
Paper 4, exactly 7 for 9231 Paper 3, and between 10 and 11 inclusive
for 9709 Paper 3. -/
theorem claim_C9_size_bounds :
    (∀ (cat : Catalog) (r : Rng) (sel : List (String × Item)),
        random_select_9231_p4 cat r = some sel → sel.length = 6) ∧
    (∀ (cat : Catalog) (r : Rng) (sel : List (String × Item)),
        random_select_9231_p3 cat r = some sel → sel.length = 7) ∧
    (∀ (cat : Catalog) (r : Rng) (sel : List (String × Item)),
        random_select_9709_p3 cat r = some sel →
          10 ≤ sel.length ∧ sel.length ≤ 11) :=
  ⟨fun _ _ _ h => (select_9231_p4_sound h).1,
   fun _ _ _ h => (select_9231_p3_sound h).2.1,
   fun _ _ _ h => ⟨(select_9709_p3_sound h).2.1, (select_9709_p3_sound h).2.2.1⟩⟩

/-- Witness for C9: concrete successful runs. -/
theorem claim_C9_witness :
    selW4.length = 6 ∧ selW3.length = 7 ∧
      (10 ≤ selW9.length ∧ selW9.length ≤ 11) :=
  ⟨claim_C9_size_bounds.1 catW4 rng0 selW4 (by decide),
   claim_C9_size_bounds.2.1 catW3 rng0 selW3 (by decide),
   claim_C9_size_bounds.2.2 catW9 rng0 selW9 (by decide)⟩

/-- Claim C10: an unrecognized paper name or a missing CSV file clears
the catalog to empty and returns without raising, so subsequent
selection calls see an empty catalog rather than stale data. -/
theorem claim_C10_clears :
    ∀ (prior : Catalog) (paper : String) (csvExists : Bool) (rows : List CsvRow),
      paper ∉ validPapers ∨ csvExists = false →
      load_question_data prior paper csvExists rows = ([], false) := by
  intro prior paper csvExists rows h
  unfold load_question_data
  by_cases hp : paper ∉ validPapers
  · rw [if_pos hp]
  · rw [if_neg hp]
    rcases h with h | h
    · exact absurd h hp
    · rw [if_pos h]

/-- Witness for C10 at an unrecognized paper name and at a missing CSV. -/
theorem claim_C10_witness :
    load_question_data priorC7 "Bogus Paper" true rowsC7 = ([], false) ∧
      load_question_data priorC7 "9231 Paper 4" false rowsC7 = ([], false) :=
  ⟨claim_C10_clears priorC7 "Bogus Paper" true rowsC7 (Or.inl (by decide)),
   claim_C10_clears priorC7 "9231 Paper 4" false rowsC7 (Or.inr rfl)⟩

/-- Witness for C4 (amended) at the all-zero generator. -/
theorem claim_C4_witness :
    random_select_9231_p3 catA4 rng0 = some selA4 ∧
      sumMarks selA4 = 50 ∧ selA4.length = 7 :=
  claim_C4_amended rng0
